import Mathlib

/-!
Verification of the Emigo orchestrator (src/emigo.py) against its
natural-language specification.

The development shallowly embeds the orchestrator state and the operations
the claims are about: the worker-process lifecycle (`start_llm_worker`,
`stop_llm_worker`, `send_to_worker`), the message router
(`processLine`, `routerRun`, translated from `Emigo._process_worker_queue`),
the stdout pump (`read_worker_stdout`), the interaction gate
(`emigo_send`, `cancel_llm_interaction`), and a generation-tagged queue
model (`PipeState`) for the restart/drain discipline.

Modelling conventions:
- Python dictionaries coming over the wire become records with `Option`
  fields, and `dict.get(k, d)` becomes `Option.getD`.
- Python truthiness of strings, lists and `Optional` values is modelled
  explicitly (`none`, `some ""` and `some []` are falsy).
- Calls to Emacs (`eval_in_emacs`, `message_emacs`) and stderr prints are
  modelled as an event trace (`Ev`); writes to the worker stdin are the
  `Ev.workerWrite` event.
- External collaborators that are not part of src/ (the `Context` class of
  context.py, the `_filter_context` function of utils.py, the Emacs side)
  are modelled from the spec: `Context` carries exactly the state the spec
  gives a session (timestamped history, chat files, cache-validity flag,
  verbosity flag), and content filtering / context-string generation are
  environment parameters, since the spec leaves them out of scope.
- Thread scheduling is idealized sequentially: a `join` on the router
  thread is modelled as the router consuming the queue up to the first
  sentinel, exactly as the spec describes the shutdown contract.
-/

namespace EmigoModel

/-- wire-level chat message dictionary: a role and a content string. -/
structure ChatMsg where
  role : String
  content : String
deriving DecidableEq, Repr

/-- Modelled from the spec: the Context class of context.py is not under
src/. Per spec section 3 a Session holds an identifier, an ordered sequence
of timestamped messages, a set of chat-file paths, a cache-validity flag and
a verbosity flag. -/
structure Context where
  session_path : String
  history : List (Nat × ChatMsg)
  chat_files : List String
  cache_valid : Bool
  verbose : Bool
deriving DecidableEq, Repr

/-- Modelled from the spec: `Context.get_history` returns the ordered
timestamped history. -/
def Context.get_history (c : Context) : List (Nat × ChatMsg) :=
  c.history

/-- Modelled from the spec: `Context.set_history` replaces the history
wholesale with the given messages; the class receives bare message
dictionaries, so entries are re-timestamped at the current time. -/
def Context.set_history (c : Context) (msgs : List ChatMsg) (now : Nat) : Context :=
  { c with history := msgs.map (fun m => (now, m)) }

/-- Modelled from the spec: `Context.append_history` appends one
timestamped message. -/
def Context.append_history (c : Context) (m : ChatMsg) (now : Nat) : Context :=
  { c with history := c.history ++ [(now, m)] }

/-- Modelled from the spec: `Context.invalidate_cache` clears the
cache-validity flag. -/
def Context.invalidate_cache (c : Context) : Context :=
  { c with cache_valid := false }

/-- Modelled from the spec: `Context.get_chat_files` returns the chat-file
set snapshot. -/
def Context.get_chat_files (c : Context) : List String :=
  c.chat_files

/-- association-list lookup for the sessions dictionary
(`self.sessions.get(path)` / `path in self.sessions`). -/
def lookupCtx : List (String × Context) → String → Option Context
  | [], _ => none
  | (q, c) :: rest, p => if q = p then some c else lookupCtx rest p

/-- association-list update for the sessions dictionary (in Python the
Context object is mutated in place; here the binding is replaced). -/
def updateCtx : List (String × Context) → String → Context → List (String × Context)
  | [], p, c => [(p, c)]
  | (q, d) :: rest, p, c =>
    if q = p then (p, c) :: rest else (q, d) :: updateCtx rest p c

/-- parsed worker message: the fields `_process_worker_queue` reads with
`message.get(...)` from the decoded JSON dictionary. -/
structure WorkerMsg where
  type_ : Option String
  session : Option String
  role : Option String
  content : Option String
  status : Option String
  message : Option String
  final_history : Option (List ChatMsg)
deriving DecidableEq, Repr

/-- request payload built by `emigo_send` (the `request_data` dictionary). -/
structure ReqData where
  session_path : String
  prompt : String
  history : List (Nat × ChatMsg)
  model : Option String
  api_key : Option String
  base_url : Option String
  verbose : Bool
  chat_files : List String
  context : String
deriving DecidableEq, Repr

/-- message written to the worker stdin by `_send_to_worker`; the
top-level `session` key is absent for interaction requests, which is why
`data.get("session", "unknown")` yields "unknown" there. -/
structure OutMsg where
  type_ : String
  session : Option String
  data : Option ReqData
deriving DecidableEq, Repr

/-- observable effects: front-end notifications, worker writes, and
stderr log lines. -/
inductive Ev where
  | flushBuffer (session text role : String)
  | agentFinished (session : String)
  | userMessage (text : String)
  | evalMessage (text : String)
  | workerWrite (m : OutMsg)
  | log (text : String)
deriving DecidableEq, Repr

/-- whether an event is surfaced to the front end (stderr logs and worker
writes are not). -/
def Ev.isFrontEnd : Ev → Bool
  | .log _ => false
  | .workerWrite _ => false
  | _ => true

/-- whether an event is a write to the worker stdin. -/
def Ev.isWrite : Ev → Bool
  | .workerWrite _ => true
  | _ => false

/-- worker process handle: alive (poll() is None) and stdin usable. -/
structure Worker where
  alive : Bool
  stdinOpen : Bool
deriving DecidableEq, Repr

/-- raw item sitting in the worker output queue: a line or the None
sentinel. Tagged with the ghost generation at push time. -/
inductive PItem where
  | line (raw : String)
  | sentinel
deriving DecidableEq, Repr

/-- orchestrator state (the mutable fields of the Emigo object). `gen` and
`startCalls` are ghost instrumentation: the generation counter the spec
attaches to worker-process lifetimes created by the cancellation restart,
and the number of process start attempts made. -/
structure EmigoState where
  sessions : List (String × Context)
  worker : Option Worker
  gen : Nat
  startCalls : Nat
  queue : List (Nat × PItem)
  routerRunning : Bool
  active : Option String
deriving DecidableEq, Repr

/-- environment: results of external calls (Emacs variables and prompts,
directory checks, process spawning, the out-of-scope filter and
context-string collaborators, the clock). -/
structure SendEnv where
  isdir : String → Bool
  confirm : Option Bool
  emacsVars : Option (Option String × Option String × Option String)
  startOk : Bool
  procOk : Bool
  writeOk : Bool
  now : Nat
  filt : String → String
  gctx : Option String → String

/-- Python truthiness of an Optional[str]: None and the empty string are
falsy. -/
def isTruthy : Option String → Bool
  | none => false
  | some s => s ≠ ""

/-- Python truthiness of an Optional[List]: None and the empty list are
falsy. -/
def overrideTruthy : Option (List ChatMsg) → Bool
  | none => false
  | some l => l ≠ []

/-- worker-process deadness test of `_send_to_worker`:
`not self.llm_worker_process or self.llm_worker_process.poll() is not None`. -/
def workerDead (s : EmigoState) : Bool :=
  match s.worker with
  | none => true
  | some w => !w.alive

/-- messages (without timestamps) of the stored history of a session;
empty when the session does not exist. -/
def histMsgs (s : EmigoState) (p : String) : List ChatMsg :=
  match lookupCtx s.sessions p with
  | some c => c.history.map Prod.snd
  | none => []

/-- trailing-entry test of the cancellation rollback: the last history
entry exists and is user-authored. -/
def trailingUser (h : List ChatMsg) : Bool :=
  match h.getLast? with
  | some m => m.role = "user"
  | none => false

/-- state immediately after `Emigo.__init__` succeeds: no sessions, the
worker started (first process lifetime), the queue processor running, no
active interaction. -/
def initState : EmigoState :=
  { sessions := []
    worker := some { alive := true, stdinOpen := true }
    gen := 1
    startCalls := 1
    queue := []
    routerRunning := true
    active := none }

/-- translation of `Emigo._get_or_create_context`: reject paths that are
not directories, otherwise look up or lazily create the Context. -/
def get_or_create_context (s : EmigoState) (env : SendEnv) (p : String) :
    Option Context × EmigoState × List Ev :=
  if env.isdir p then
    match lookupCtx s.sessions p with
    | some c => (some c, s, [])
    | none =>
      let c : Context :=
        { session_path := p, history := [], chat_files := []
          cache_valid := false, verbose := true }
      (some c, { s with sessions := s.sessions ++ [(p, c)] }, [])
  else
    (none, s, [Ev.evalMessage ("[Emigo Error] Invalid context path: " ++ p)])

/-- translation of the start attempt inside `Emigo._start_llm_worker`: on
success the process handle is set and a new process lifetime (generation)
begins; on immediate exit the handle is left unset and Emacs is notified. -/
def startAttempt (s : EmigoState) (env : SendEnv) : EmigoState × List Ev :=
  if env.startOk then
    ({ s with worker := some { alive := true, stdinOpen := true }
              gen := s.gen + 1
              startCalls := s.startCalls + 1 }, [])
  else
    ({ s with worker := none, startCalls := s.startCalls + 1 },
     [Ev.userMessage "Error: LLM worker process failed to start. Check *Messages* or Emigo process buffer."])

/-- translation of `Emigo._start_llm_worker`: a no-op when the process is
already running, otherwise one start attempt. -/
def start_llm_worker (s : EmigoState) (env : SendEnv) : EmigoState × List Ev :=
  match s.worker with
  | some w =>
    if w.alive then (s, [Ev.log "LLM worker process already running."])
    else startAttempt s env
  | none => startAttempt s env

/-- items remaining in the queue after the router consumed everything up
to and including the first sentinel. -/
def dropThroughSentinel : List (Nat × PItem) → List (Nat × PItem)
  | [] => []
  | (_, PItem.sentinel) :: rest => rest
  | (_, PItem.line _) :: rest => dropThroughSentinel rest

/-- translation of `Emigo._stop_llm_worker`: terminate the process (the
handle stays set in the normal path, pointing at a dead process), then push
the None sentinel and join the queue processor; the join is idealized as
the router consuming the queue through the first sentinel. -/
def stop_llm_worker (s : EmigoState) : EmigoState × List Ev :=
  let s1 :=
    match s.worker with
    | some w =>
      if w.alive then { s with worker := some { alive := false, stdinOpen := false } }
      else s
    | none => s
  if s1.routerRunning then
    ({ s1 with
        queue := dropThroughSentinel (s1.queue ++ [(s1.gen, PItem.sentinel)])
        routerRunning := false },
     [Ev.log "Signaling worker queue processor thread to stop."])
  else
    (s1, [])

/-- translation of `Emigo._send_to_worker`: if the process is not alive,
exactly one restart attempt; if the handle is still unset afterwards,
report a flush-buffer error scoped to `data.get("session", "unknown")` and
return without writing; otherwise write (a failed write triggers
`_stop_llm_worker` plus an error report). -/
def send_to_worker (s : EmigoState) (env : SendEnv) (d : OutMsg) :
    EmigoState × List Ev :=
  let sessName := d.session.getD "unknown"
  let r1 :=
    if workerDead s then
      let r := start_llm_worker s env
      (r.1, r.2, true)
    else (s, ([] : List Ev), false)
  let s1 := r1.1
  let e1 := r1.2.1
  if r1.2.2 ∧ s1.worker = none then
    (s1, e1 ++ [Ev.flushBuffer sessName "[Error: LLM worker process is not running]" "error"])
  else
    match s1.worker with
    | some w =>
      if w.stdinOpen then
        if env.writeOk then
          (s1, e1 ++ [Ev.workerWrite d])
        else
          let r2 := stop_llm_worker s1
          (r2.1, e1 ++ r2.2 ++
            [Ev.flushBuffer sessName "[Error: Failed to send message to worker]" "error"])
      else
        (s1, e1 ++ [Ev.flushBuffer sessName "[Error: Cannot write to LLM worker process]" "error"])
    | none =>
      (s1, e1 ++ [Ev.flushBuffer sessName "[Error: LLM worker process is not running]" "error"])

/-- session key of a worker message after the Python truthiness check
`if not session_path: continue`. -/
def sessionOf (m : WorkerMsg) : Option String :=
  match m.session with
  | some s => if s = "" then none else some s
  | none => none

/-- history-update block of the finished branch of
`Emigo._process_worker_queue`: on normal completion with a truthy
final-history list, replace the session history wholesale by the payload
with each entry content filtered; otherwise warn and leave it alone. -/
def finishedUpdate (s1 : EmigoState) (env : SendEnv) (m : WorkerMsg) (sp : String) :
    EmigoState × List Ev :=
  let status := m.status.getD "unknown"
  if status = "success" ∨ status = "max_turns_reached" then
    match m.final_history with
    | some fh =>
      if fh ≠ [] then
        let r3 := get_or_create_context s1 env sp
        match r3.1 with
        | some c =>
          let fc := fh.map (fun msg => { msg with content := env.filt msg.content })
          let c1 := Context.set_history c fc env.now
          ({ r3.2.1 with sessions := updateCtx r3.2.1.sessions sp c1 }, r3.2.2)
        | none =>
          (r3.2.1, r3.2.2 ++ [Ev.log "Error: Could not find context to update history."])
      else
        (s1, [Ev.log "Warning: Worker finished successfully but did not provide final history."])
    | none =>
      (s1, [Ev.log "Warning: Worker finished successfully but did not provide final history."])
  else (s1, [])

/-- translation of the dispatch body of `Emigo._process_worker_queue` for
one successfully parsed message: stream chunks are filtered (except
tool-argument echoes) and flushed when non-empty or a tool marker;
finished messages clear the active flag when it matches, replace the
history by the filtered payload on normal completion with a truthy list
payload, and always notify agent-finished; error messages flush an error
chunk and clear the active flag when it matches; pong and unknown types do
nothing. -/
def processLine (s : EmigoState) (env : SendEnv) (m : WorkerMsg) :
    EmigoState × List Ev :=
  match sessionOf m with
  | none => (s, [Ev.log "Worker message missing session path."])
  | some sp =>
    if m.type_ = some "stream" then
      let role := m.role.getD "llm"
      let content := m.content.getD ""
      let filtered := if role ≠ "tool_json_args" then env.filt content else content
      if filtered ≠ "" ∨ role = "tool_json" then
        (s, [Ev.flushBuffer sp filtered role])
      else
        (s, [])
    else if m.type_ = some "finished" then
      let s1 := if s.active = some sp then { s with active := none } else s
      let r2 := finishedUpdate s1 env m sp
      (r2.1, r2.2 ++ [Ev.agentFinished sp])
    else if m.type_ = some "error" then
      let err := m.message.getD "Unknown error from worker"
      let s1 := if s.active = some sp then { s with active := none } else s
      (s1, [Ev.flushBuffer sp ("[Worker Error: " ++ err ++ "]") "error"])
    else if m.type_ = some "pong" then
      (s, [Ev.log "Received pong from worker."])
    else
      (s, [])

/-- one dequeued queue entry as the router sees it: the None sentinel, a
line that fails JSON parsing, or a parsed message. -/
inductive RItem where
  | sentinel
  | malformed (raw : String)
  | msg (m : WorkerMsg)
deriving DecidableEq, Repr

/-- translation of the `Emigo._process_worker_queue` loop over the already
queued items: break on the sentinel (returning the unconsumed remainder),
log and continue on malformed JSON, otherwise dispatch and continue. -/
def routerRun (env : SendEnv) (s : EmigoState) :
    List RItem → EmigoState × List Ev × List RItem
  | [] => (s, [], [])
  | RItem.sentinel :: rest =>
    (s, [Ev.log "Worker output queue processing stopped."], rest)
  | RItem.malformed raw :: rest =>
    let r := routerRun env s rest
    (r.1, Ev.log ("Received invalid JSON from worker queue: " ++ raw) :: r.2.1, r.2.2)
  | RItem.msg m :: rest =>
    let r1 := processLine s env m
    let r := routerRun env r1.1 rest
    (r.1, r1.2 ++ r.2.1, r.2.2)

/-- one read event of the stdout pump: a line delivered by `readline`, the
end of the stream (empty read), or a read exception. -/
inductive ReadEv where
  | lineRead (raw : String)
  | eofRead
  | errRead
deriving DecidableEq, Repr

/-- the `for line in iter(proc.stdout.readline, '')` loop body of
`Emigo._read_worker_stdout`: push each stripped line, stop at end of
stream or on a read error. -/
def pumpLoop : List ReadEv → List (Option String)
  | [] => []
  | ReadEv.lineRead raw :: rest => some raw.trim :: pumpLoop rest
  | ReadEv.eofRead :: _ => []
  | ReadEv.errRead :: _ => []

/-- translation of `Emigo._read_worker_stdout`: when the process handle
and its stdout exist, run the read loop and push the None sentinel in the
`finally` block; when either is absent, push the sentinel immediately. -/
def read_worker_stdout (proc : Option (Option (List ReadEv))) :
    List (Option String) :=
  match proc with
  | some (some evs) => pumpLoop evs ++ [none]
  | some none => [none]
  | none => [none]

/-- translation of `Emigo.cancel_llm_interaction`: refuse when the session
is not the active interaction; otherwise stop the worker and the queue
processor, drain and discard every leftover queue item (stale sentinels
included), restart the worker (a new generation) and the queue processor,
roll back the trailing user turn when it is user-authored, invalidate the
session cache, clear the active flag and notify the front end. -/
def cancel_llm_interaction (s : EmigoState) (env : SendEnv) (session_path : String) :
    EmigoState × List Ev × Bool :=
  if s.active ≠ some session_path then
    (s, [Ev.userMessage ("No active interaction found for session " ++ session_path ++ " to cancel.")],
     false)
  else
    let r1 := stop_llm_worker s
    let s2 := { r1.1 with queue := [] }
    let r3 := start_llm_worker s2 env
    let s3 := r3.1
    let restartedOk :=
      match s3.worker with
      | some w => w.alive
      | none => false
    if !restartedOk then
      ({ s3 with active := none },
       r1.2 ++ r3.2 ++ [Ev.userMessage "[Emigo Error] Failed to restart LLM worker after cancellation."],
       false)
    else
      let s4 := { s3 with routerRunning := env.procOk }
      if !env.procOk then
        let r5 := stop_llm_worker s4
        ({ r5.1 with active := none },
         r1.2 ++ r3.2 ++ [Ev.userMessage "[Emigo Error] Failed to restart worker queue processor thread."] ++ r5.2,
         false)
      else
        match lookupCtx s4.sessions session_path with
        | some c =>
          let r6 :=
            match c.history.getLast? with
            | some tm =>
              if tm.2.role = "user" then
                (Context.set_history c ((c.history.dropLast).map Prod.snd) env.now,
                 ([] : List Ev))
              else
                (c, [Ev.log "Warning: Last message in history for cancelled context was not from user."])
            | none => (c, [Ev.log "History for context was empty, nothing to remove."])
          let c2 := Context.invalidate_cache r6.1
          let s5 := { s4 with sessions := updateCtx s4.sessions session_path c2 }
          ({ s5 with active := none },
           r1.2 ++ r3.2 ++ r6.2 ++
             [Ev.flushBuffer session_path "\n[Interaction cancelled by user.]\n" "warning"],
           true)
        | none =>
          ({ s4 with active := none },
           r1.2 ++ r3.2 ++
             [Ev.log "Warning: Could not find context to update history or invalidate cache after cancellation."] ++
             [Ev.flushBuffer session_path "\n[Interaction cancelled by user.]\n" "warning"],
           true)

/-- Python test `not model or '/' not in model` on the resolved model
identifier. -/
def modelMalformed : Option String → Bool
  | none => true
  | some m => !m.toList.contains '/'

/-- translation of the idle-path body of `Emigo.emigo_send` (reached when
no interaction is active or after a confirmed cancellation): mark the new
session active, resolve the context, optimistically mutate the history
(replace wholesale on a truthy override, else flush and append the user
turn), read the Emacs model configuration, validate the model identifier,
build the request envelope and dispatch it via `_send_to_worker`. -/
def emigo_send_core (s : EmigoState) (env : SendEnv) (session_path prompt : String)
    (history_override : Option (List ChatMsg)) : EmigoState × List Ev :=
  let s0 := { s with active := some session_path }
  let r1 := get_or_create_context s0 env session_path
  match r1.1 with
  | none =>
    ({ r1.2.1 with active := none },
     r1.2.2 ++ [Ev.flushBuffer ("invalid-context-" ++ session_path)
       ("[Error: Invalid context path " ++ session_path ++ "]") "error"])
  | some c =>
    let s1 := r1.2.1
    let r2 :=
      if overrideTruthy history_override then
        (Context.set_history c (history_override.getD []) env.now,
         [Ev.flushBuffer c.session_path "\n[History revised by user]\n" "info"],
         env.gctx none)
      else
        (Context.append_history c { role := "user", content := prompt } env.now,
         [Ev.flushBuffer c.session_path ("\n\nUser:\n" ++ prompt ++ "\n") "user"],
         env.gctx (some prompt))
    let c1 := r2.1
    let e2 := r2.2.1
    let ctxStr := r2.2.2
    let s2 := { s1 with sessions := updateCtx s1.sessions session_path c1 }
    let session_history := c1.get_history
    let session_chat_files := c1.get_chat_files
    match env.emacsVars with
    | none =>
      ({ s2 with active := none },
       r1.2.2 ++ e2 ++
         [Ev.userMessage ("Error retrieving Emacs variables for context " ++ session_path ++ ".")])
    | some vars =>
      let model := vars.1
      if modelMalformed model then
        ({ s2 with active := none },
         r1.2.2 ++ e2 ++
           [Ev.userMessage "[Emigo Error] Invalid or missing emigo-model. Expected provider/model_name."])
      else
        let effective_prompt :=
          match session_history.getLast? with
          | some tm => tm.2.content
          | none => prompt
        let req : ReqData :=
          { session_path := c1.session_path
            prompt := effective_prompt
            history := session_history
            model := model
            api_key := vars.2.2
            base_url := vars.2.1
            verbose := c1.verbose
            chat_files := session_chat_files
            context := ctxStr }
        let r3 := send_to_worker s2 env { type_ := "interaction_request", session := none, data := some req }
        (r3.1, r1.2.2 ++ e2 ++ r3.2)

/-- translation of `Emigo.emigo_send`: while an interaction is active, ask
the front end whether to cancel it; on refusal drop the new request with an
informational message, on confirmation cancel and (only on success)
proceed with the idle-path submission logic. -/
def emigo_send (s : EmigoState) (env : SendEnv) (session_path prompt : String)
    (history_override : Option (List ChatMsg)) : EmigoState × List Ev :=
  if isTruthy s.active then
    let a := s.active.getD ""
    let ignore_desc := if overrideTruthy history_override then "Revised history" else "New prompt"
    match env.confirm with
    | none =>
      (s, [Ev.userMessage "[Emigo Error] Failed to ask for cancellation confirmation."])
    | some false =>
      (s, [Ev.evalMessage ("[Emigo] LLM busy with " ++ a ++ ". " ++ ignore_desc ++ " ignored.")])
    | some true =>
      let r := cancel_llm_interaction s env a
      if r.2.2 then
        let rc := emigo_send_core r.1 env session_path prompt history_override
        (rc.1, r.2.1 ++ rc.2)
      else
        (r.1, r.2.1 ++ [Ev.userMessage "[Emigo Error] Failed to cancel previous interaction."])
  else
    emigo_send_core s env session_path prompt history_override

/-- front-end operation: one submit or one cancel call. -/
inductive Op where
  | send (env : SendEnv) (path prompt : String) (override : Option (List ChatMsg))
  | cancel (env : SendEnv) (path : String)

/-- state effect of one front-end operation. -/
def execOp (s : EmigoState) : Op → EmigoState
  | Op.send env p pr ov => (emigo_send s env p pr ov).1
  | Op.cancel env p => (cancel_llm_interaction s env p).1

/-- state after a sequence of front-end operations. -/
def execOps (s : EmigoState) (ops : List Op) : EmigoState :=
  ops.foldl execOp s

/-- sessions currently bound as the active interaction. -/
def activeSessions (s : EmigoState) : List String :=
  match s.active with
  | some x => [x]
  | none => []

/-- generation-tagged queue model of the pump/router/restart pipeline.
`gen` is the spec generation counter (one worker-process lifetime created
by the cancellation restart), `queue` holds items tagged with the
generation they were read under, `routerOn` says whether the queue
processor thread is alive, and `dispatched` is the ghost log of routed
messages: the generation the item was read under paired with the current
generation at the moment the router dispatched it. -/
structure PipeState where
  gen : Nat
  queue : List (Nat × PItem)
  routerOn : Bool
  dispatched : List (Nat × Nat)
deriving DecidableEq, Repr

/-- pipeline step: the stdout pump pushes one item (a line or its
sentinel), the router consumes one queued item, or
`cancel_llm_interaction` performs its stop/drain/restart sequence. -/
inductive PipeOp where
  | push (it : PItem)
  | route
  | cancelRestart
deriving Repr

/-- one iteration of the `_process_worker_queue` loop: dequeue the head;
the sentinel stops the loop, any other item is dispatched. -/
def routeOne (s : PipeState) : PipeState :=
  if s.routerOn then
    match s.queue with
    | [] => s
    | (_, PItem.sentinel) :: rest => { s with queue := rest, routerOn := false }
    | (t, PItem.line _) :: rest =>
      { s with queue := rest, dispatched := s.dispatched ++ [(t, s.gen)] }
  else s

/-- run the router until it has stopped or the fuel is exhausted (the join
of `_stop_llm_worker`, idealized as completing). -/
def joinRouter : Nat → PipeState → PipeState
  | 0, s => s
  | n + 1, s => if s.routerOn then joinRouter n (routeOne s) else s

/-- `_stop_llm_worker` on the pipeline: push the None sentinel and join
the queue processor. -/
def stopPipe (s : PipeState) : PipeState :=
  let s1 := { s with queue := s.queue ++ [(s.gen, PItem.sentinel)] }
  joinRouter s1.queue.length s1

/-- the cancellation restart on the pipeline: stop the worker and join the
router, drain and discard every leftover item (stale sentinels included),
start a new worker-process lifetime (incrementing the generation, spec
section 4.1) and restart the queue processor. -/
def cancelPipe (s : PipeState) : PipeState :=
  let s1 := stopPipe s
  { s1 with queue := [], gen := s1.gen + 1, routerOn := true }

/-- effect of one pipeline step; pushes tag the item with the generation
it is read under. -/
def pipeStep (s : PipeState) : PipeOp → PipeState
  | PipeOp.push it => { s with queue := s.queue ++ [(s.gen, it)] }
  | PipeOp.route => routeOne s
  | PipeOp.cancelRestart => cancelPipe s

/-- pipeline state after a sequence of steps. -/
def pipeExec (s : PipeState) (ops : List PipeOp) : PipeState :=
  ops.foldl pipeStep s

/-- initial pipeline state: first worker generation, empty queue, router
running, nothing dispatched. -/
def pipeInit : PipeState :=
  { gen := 1, queue := [], routerOn := true, dispatched := [] }

/-- pipeline invariant: every queued item was read under the current
generation, and every dispatched item was dispatched under the generation
it was read under. -/
def pipeInv (s : PipeState) : Prop :=
  (∀ p ∈ s.queue, p.1 = s.gen) ∧ (∀ p ∈ s.dispatched, p.1 = p.2)

/-- malformed-line test on a queue item. -/
def RItem.isMalformed : RItem → Bool
  | RItem.malformed _ => true
  | _ => false

/-- concrete environment for witnesses: valid directories, a well-formed
model identifier, successful process starts and writes, identity filter. -/
def envA : SendEnv :=
  { isdir := fun _ => true
    confirm := some false
    emacsVars := some (some "openai/gpt-4o", none, none)
    startOk := true
    procOk := true
    writeOk := true
    now := 7
    filt := fun str => str
    gctx := fun _ => "CTX" }

/-- environment whose resolved model identifier lacks the slash
separator. -/
def envBadModel : SendEnv :=
  { envA with emacsVars := some (some "badmodel", none, none) }

/-- environment in which spawning the worker process fails. -/
def envNoStart : SendEnv :=
  { envA with startOk := false }

/-- concrete session fixture with a trailing user-authored entry. -/
def ctxA : Context :=
  { session_path := "/p"
    history := [(1, { role := "assistant", content := "ok" }),
                (2, { role := "user", content := "do it" })]
    chat_files := []
    cache_valid := true
    verbose := true }

/-- concrete orchestrator state with session "/p" bound as the active
interaction. -/
def stC3x : EmigoState :=
  { initState with sessions := [("/p", ctxA)], active := some "/p" }

/-- concrete state whose worker process handle is unset. -/
def stDeadW : EmigoState :=
  { initState with worker := none }

/-- finished message carrying a present but empty final-history payload. -/
def mC5empty : WorkerMsg :=
  { type_ := some "finished", session := some "/p", role := none
    content := none, status := some "success", message := none
    final_history := some [] }

/-- finished message carrying a non-empty final-history payload. -/
def mC5full : WorkerMsg :=
  { mC5empty with final_history := some [{ role := "assistant", content := "done" }] }

end EmigoModel

namespace EmigoModel

theorem lookupCtx_updateCtx_self (l : List (String × Context)) (p : String) (c : Context) :
    lookupCtx (updateCtx l p c) p = some c := by
  induction l with
  | nil => simp [updateCtx, lookupCtx]
  | cons hd tl ih =>
    by_cases h : hd.1 = p
    · simp [updateCtx, lookupCtx, h]
    · simp only [updateCtx]
      rw [if_neg h]
      simp only [lookupCtx]
      rw [if_neg h]
      exact ih

/-- emigo C2: after any sequence of submit and cancel operations from the
initial state, the active-interaction state names at most one session: it
is either absent or exactly one session identifier, never two. -/
theorem emigo_C2_at_most_one_active (ops : List Op) :
    (activeSessions (execOps initState ops)).length ≤ 1 := by
  cases h : (execOps initState ops).active <;> simp [activeSessions, h]

/-- emigo C9: on every termination path of the stdout pump — end of
stream, a read error, or an absent process handle or stdout stream — the
pump pushes the None sentinel as its last queue item before exiting. -/
theorem emigo_C9_pump_always_sentinel (proc : Option (Option (List ReadEv))) :
    (read_worker_stdout proc).getLast? = some none := by
  match proc with
  | some (some evs) => simp [read_worker_stdout]
  | some none => rfl
  | none => rfl

/-- emigo C10: a cancel call for a session that is not the currently
active interaction (in particular when no interaction is active) returns
False and leaves the orchestrator state completely unchanged — worker,
queue, router, sessions, histories, chat files and cache flags included —
emitting only an informational message. -/
theorem emigo_C10_cancel_nonactive_noop (s : EmigoState) (env : SendEnv) (p : String)
    (h : s.active ≠ some p) :
    cancel_llm_interaction s env p =
      (s, [Ev.userMessage ("No active interaction found for session " ++ p ++ " to cancel.")],
       false) := by
  simp [cancel_llm_interaction, h]

theorem emigo_C10_witness :
    (stC3x.active ≠ some "/q") ∧
      cancel_llm_interaction stC3x envA "/q" =
        (stC3x,
         [Ev.userMessage ("No active interaction found for session " ++ "/q" ++ " to cancel.")],
         false) :=
  ⟨by decide, emigo_C10_cancel_nonactive_noop stC3x envA "/q" (by decide)⟩

/-- emigo C7: a submit made while some session is the active interaction,
with the confirmation declined, leaves the state (including the active
binding and every session history) exactly unchanged — so no worker
contact, no mutation — and emits only the informational ignored message. -/
theorem emigo_C7_declined_preemption (s : EmigoState) (env : SendEnv)
    (p pr : String) (ov : Option (List ChatMsg)) (a : String)
    (ha : s.active = some a) (hne : a ≠ "") (hc : env.confirm = some false) :
    emigo_send s env p pr ov =
      (s, [Ev.evalMessage ("[Emigo] LLM busy with " ++ a ++ ". " ++
        (if overrideTruthy ov then "Revised history" else "New prompt") ++
        " ignored.")]) := by
  simp [emigo_send, isTruthy, ha, hne, hc]

theorem emigo_C7_witness :
    (stC3x.active = some "/p") ∧ ("/p" ≠ "") ∧ (envA.confirm = some false) ∧
      emigo_send stC3x envA "/a" "new prompt" none =
        (stC3x, [Ev.evalMessage ("[Emigo] LLM busy with " ++ "/p" ++ ". " ++
          (if overrideTruthy none then "Revised history" else "New prompt") ++
          " ignored.")]) :=
  ⟨rfl, by decide, rfl,
   emigo_C7_declined_preemption stC3x envA "/a" "new prompt" none "/p" rfl (by decide) rfl⟩

/-- emigo C6: a send invoked while the worker process is not alive makes
exactly one restart attempt (the ghost start counter increases by exactly
one, so there is no second attempt and no retry loop); if the worker is
still absent after that single attempt, the send emits the session-scoped
process-not-running error notification and performs no write to the
worker. -/
theorem emigo_C6_send_single_restart (s : EmigoState) (env : SendEnv) (d : OutMsg)
    (hdead : workerDead s = true) :
    ((send_to_worker s env d).1.startCalls = s.startCalls + 1) ∧
    (env.startOk = false →
      ((send_to_worker s env d).2.all (fun e => !e.isWrite) = true) ∧
      Ev.flushBuffer (d.session.getD "unknown")
          "[Error: LLM worker process is not running]" "error"
        ∈ (send_to_worker s env d).2) := by
  cases hw : s.worker with
  | none =>
    cases hok : env.startOk <;> cases hwr : env.writeOk <;>
      cases hr : s.routerRunning <;>
      simp [send_to_worker, workerDead, start_llm_worker, startAttempt,
            stop_llm_worker, hw, hok, hwr, hr, Ev.isWrite]
  | some w =>
    have hal : w.alive = false := by
      simpa [workerDead, hw] using hdead
    cases hok : env.startOk <;> cases hwr : env.writeOk <;>
      cases hr : s.routerRunning <;>
      simp [send_to_worker, workerDead, start_llm_worker, startAttempt,
            stop_llm_worker, hw, hal, hok, hwr, hr, Ev.isWrite]

theorem emigo_C6_witness :
    (workerDead stDeadW = true) ∧ (envNoStart.startOk = false) ∧
      ((send_to_worker stDeadW envNoStart { type_ := "t", session := none, data := none }).1.startCalls
          = stDeadW.startCalls + 1) ∧
      ((send_to_worker stDeadW envNoStart { type_ := "t", session := none, data := none }).2.all
          (fun e => !e.isWrite) = true) ∧
      Ev.flushBuffer "unknown" "[Error: LLM worker process is not running]" "error"
        ∈ (send_to_worker stDeadW envNoStart { type_ := "t", session := none, data := none }).2 := by
  have h := emigo_C6_send_single_restart stDeadW envNoStart
    { type_ := "t", session := none, data := none } (by decide)
  exact ⟨by decide, rfl, h.1, (h.2 rfl).1, (h.2 rfl).2⟩

/-- emigo C3: cancelling the active interaction (with the worker and the
queue processor restarting successfully) succeeds, and it removes exactly
the most recent entry of the session history precisely when that trailing
entry is user-authored; when the trailing entry is not user-authored the
history is unchanged and a warning is logged, and an empty (or absent)
history is also left unchanged. -/
theorem emigo_C3_cancel_rollback (s : EmigoState) (env : SendEnv) (p : String)
    (ha : s.active = some p) (hs : env.startOk = true) (hp : env.procOk = true) :
    ((cancel_llm_interaction s env p).2.2 = true) ∧
    (histMsgs (cancel_llm_interaction s env p).1 p =
      if trailingUser (histMsgs s p) then (histMsgs s p).dropLast else histMsgs s p) ∧
    (trailingUser (histMsgs s p) = false → histMsgs s p ≠ [] →
      Ev.log "Warning: Last message in history for cancelled context was not from user."
        ∈ (cancel_llm_interaction s env p).2.1) := by
  have hstop : ∀ q : EmigoState, (stop_llm_worker q).1.sessions = q.sessions ∧
      (stop_llm_worker q).1.active = q.active ∧
      ((stop_llm_worker q).1.worker = none ∨
        ∃ w, (stop_llm_worker q).1.worker = some w ∧ w.alive = false) := by
    intro q
    cases hw : q.worker with
    | none =>
      cases hr : q.routerRunning <;> simp [stop_llm_worker, hw, hr]
    | some w =>
      cases hal : w.alive <;> cases hr : q.routerRunning <;>
        simp [stop_llm_worker, hw, hal, hr]
  rcases hstop s with ⟨hsess, hact, hwk⟩
  have hres : ∀ fh : List ChatMsg, ∀ nowv : Nat, ∀ c : Context,
      (Context.set_history c fh nowv).history.map Prod.snd = fh := by
    intro fh nowv c
    simp [Context.set_history, Function.comp]
  unfold cancel_llm_interaction
  rw [if_neg (by simp [ha])]
  cases hl : lookupCtx s.sessions p with
  | none =>
    rcases hwk with hwn | ⟨w, hwsome, hwal⟩ <;>
      simp [histMsgs, hl, trailingUser, hp, hs, hsess, hact,
            start_llm_worker, startAttempt, *]
  | some c =>
    cases hg : c.history.getLast? with
    | none =>
      have hh : c.history = [] := by
        cases hhist : c.history with
        | nil => rfl
        | cons hd tl =>
          rw [hhist] at hg
          simp at hg
      rcases hwk with hwn | ⟨w, hwsome, hwal⟩ <;>
        simp [histMsgs, hl, trailingUser, hp, hs, hsess, hact,
              start_llm_worker, startAttempt, hg, hh, lookupCtx_updateCtx_self,
              Context.invalidate_cache, hres, *]
    | some tm =>
      by_cases hu : tm.2.role = "user" <;>
        rcases hwk with hwn | ⟨w, hwsome, hwal⟩ <;>
          simp [histMsgs, hl, trailingUser, hp, hs, hsess, hact,
                start_llm_worker, startAttempt, hg, hu, List.getLast?_map,
                lookupCtx_updateCtx_self, Context.invalidate_cache, hres,
                List.map_dropLast, *]

theorem emigo_C3_witness :
    (stC3x.active = some "/p") ∧ (envA.startOk = true) ∧ (envA.procOk = true) ∧
      ((cancel_llm_interaction stC3x envA "/p").2.2 = true) ∧
      (histMsgs (cancel_llm_interaction stC3x envA "/p").1 "/p" =
        if trailingUser (histMsgs stC3x "/p") then (histMsgs stC3x "/p").dropLast
        else histMsgs stC3x "/p") := by
  have h := emigo_C3_cancel_rollback stC3x envA "/p" rfl rfl rfl
  exact ⟨rfl, rfl, rfl, h.1, h.2.1⟩


theorem set_history_msgs (c : Context) (fh : List ChatMsg) (nowv : Nat) :
    (Context.set_history c fh nowv).history.map Prod.snd = fh := by
  simp [Context.set_history, Function.comp]

theorem append_history_msgs (c : Context) (m : ChatMsg) (nowv : Nat) :
    (Context.append_history c m nowv).history.map Prod.snd =
      c.history.map Prod.snd ++ [m] := by
  simp [Context.append_history]

/-- emigo C4 counterexample: a submit accepted while Idle whose resolved
model identifier lacks the slash separator does abort before any worker
write and leaves the gate Idle, but the optimistic session mutation HAS
taken place: the history of the session, empty beforehand, holds the
appended user turn after the aborted call — contradicting the claim that
configuration is validated before the session is mutated and that on
validation failure the history is unchanged. -/
theorem emigo_C4_cex :
    ((emigo_send initState envBadModel "/proj" "hi" none).1.active = none) ∧
    ((emigo_send initState envBadModel "/proj" "hi" none).2.all
        (fun e => !e.isWrite) = true) ∧
    (histMsgs initState "/proj" = []) ∧
    (histMsgs (emigo_send initState envBadModel "/proj" "hi" none).1 "/proj" =
      [{ role := "user", content := "hi" }]) := by
  decide

/-- emigo C4 amended: a submit accepted while Idle whose resolved model
identifier is missing or malformed aborts before any message is sent to
the worker (no write, no process start attempt) and the gate is Idle
afterward; however the optimistic session mutation has already happened
when validation runs, so the user turn remains appended (or the overridden
history remains in place) after the aborted call. -/
theorem emigo_C4_config_abort (s : EmigoState) (env : SendEnv) (p pr : String)
    (ov : Option (List ChatMsg)) (mo bu ak : Option String)
    (hidle : isTruthy s.active = false)
    (hdir : env.isdir p = true)
    (hvars : env.emacsVars = some (mo, bu, ak))
    (hmo : modelMalformed mo = true) :
    ((emigo_send s env p pr ov).1.active = none) ∧
    ((emigo_send s env p pr ov).2.all (fun e => !e.isWrite) = true) ∧
    ((emigo_send s env p pr ov).1.startCalls = s.startCalls) ∧
    (histMsgs (emigo_send s env p pr ov).1 p =
      if overrideTruthy ov then ov.getD []
      else histMsgs s p ++ [{ role := "user", content := pr }]) := by
  unfold emigo_send
  rw [if_neg (by simp [hidle])]
  unfold emigo_send_core
  cases hl : lookupCtx s.sessions p with
  | none =>
    cases hov : overrideTruthy ov <;>
      simp [get_or_create_context, hdir, hl, hvars, hmo, hov, histMsgs,
            lookupCtx_updateCtx_self, set_history_msgs, append_history_msgs,
            Ev.isWrite]
  | some c =>
    cases hov : overrideTruthy ov <;>
      simp [get_or_create_context, hdir, hl, hvars, hmo, hov, histMsgs,
            lookupCtx_updateCtx_self, set_history_msgs, append_history_msgs,
            Ev.isWrite]

theorem emigo_C4_witness :
    (isTruthy initState.active = false) ∧
    (envBadModel.isdir "/proj" = true) ∧
    (modelMalformed (some "badmodel") = true) ∧
    ((emigo_send initState envBadModel "/proj" "hi" none).1.active = none) ∧
    ((emigo_send initState envBadModel "/proj" "hi" none).1.startCalls
        = initState.startCalls) ∧
    (histMsgs (emigo_send initState envBadModel "/proj" "hi" none).1 "/proj" =
      if overrideTruthy none then (none : Option (List ChatMsg)).getD []
      else histMsgs initState "/proj" ++ [{ role := "user", content := "hi" }]) := by
  have h := emigo_C4_config_abort initState envBadModel "/proj" "hi" none
    (some "badmodel") none none rfl rfl rfl (by decide)
  exact ⟨rfl, rfl, by decide, h.1, h.2.2.1, h.2.2.2⟩


theorem finishedUpdate_active (s1 : EmigoState) (env : SendEnv) (m : WorkerMsg)
    (sp : String) :
    (finishedUpdate s1 env m sp).1.active = s1.active := by
  unfold finishedUpdate
  cases hfh : m.final_history with
  | none =>
    by_cases hst : m.status.getD "unknown" = "success" ∨
        m.status.getD "unknown" = "max_turns_reached" <;> simp [hst]
  | some fh =>
    by_cases hst : m.status.getD "unknown" = "success" ∨
        m.status.getD "unknown" = "max_turns_reached"
    · by_cases hfe : fh = []
      · simp [hst, hfe]
      · cases hd : env.isdir sp with
        | false => simp [get_or_create_context, hst, hd, hfe]
        | true =>
          cases hl : lookupCtx s1.sessions sp <;>
            simp [get_or_create_context, hst, hd, hfe, hl]
    · simp [hst]

theorem finishedUpdate_hist (s1 : EmigoState) (env : SendEnv) (m : WorkerMsg)
    (sp : String) (fh : List ChatMsg)
    (hok : m.status = some "success" ∨ m.status = some "max_turns_reached")
    (hfh : m.final_history = some fh) (hfe : fh ≠ []) (hd : env.isdir sp = true) :
    histMsgs (finishedUpdate s1 env m sp).1 sp =
      fh.map (fun msg => { msg with content := env.filt msg.content }) := by
  unfold finishedUpdate
  have hst : m.status.getD "unknown" = "success" ∨
      m.status.getD "unknown" = "max_turns_reached" := by
    rcases hok with h | h <;> simp [h]
  rw [if_pos hst, hfh]
  cases hl : lookupCtx s1.sessions sp <;>
    simp [get_or_create_context, hd, hl, hfe, histMsgs, lookupCtx_updateCtx_self,
          set_history_msgs]

/-- emigo C5 counterexample: a finished message with status success and a
PRESENT final-history payload (the empty list) does not replace the stored
history: the session history is left untouched rather than replaced
wholesale by the (filtered, empty) payload, because the code treats a
falsy payload as absent. -/
theorem emigo_C5_cex :
    (mC5empty.type_ = some "finished") ∧ (mC5empty.status = some "success") ∧
    (mC5empty.final_history = some []) ∧
    (histMsgs stC3x "/p" =
      [{ role := "assistant", content := "ok" }, { role := "user", content := "do it" }]) ∧
    (histMsgs (processLine stC3x envA mC5empty).1 "/p" =
      [{ role := "assistant", content := "ok" }, { role := "user", content := "do it" }]) := by
  decide

/-- emigo C5 amended: when the router processes a finished message for a
session, the agent-finished notification is always sent and the
active-interaction binding is cleared exactly when it still names that
session; and when the status indicates normal completion with a NON-EMPTY
final-history payload present and the session path is a valid directory,
the stored history is replaced wholesale by the payload with each entry
content filtered. -/
theorem emigo_C5_finished_amended (s : EmigoState) (env : SendEnv) (m : WorkerMsg)
    (sp : String)
    (ht : m.type_ = some "finished") (hsp : m.session = some sp) (hne : sp ≠ "") :
    (Ev.agentFinished sp ∈ (processLine s env m).2) ∧
    ((processLine s env m).1.active = if s.active = some sp then none else s.active) ∧
    (∀ fh : List ChatMsg,
      (m.status = some "success" ∨ m.status = some "max_turns_reached") →
      m.final_history = some fh → fh ≠ [] → env.isdir sp = true →
      histMsgs (processLine s env m).1 sp =
        fh.map (fun msg => { msg with content := env.filt msg.content })) := by
  have hso : sessionOf m = some sp := by simp [sessionOf, hsp, hne]
  have hred : processLine s env m =
      ((finishedUpdate (if s.active = some sp then { s with active := none } else s) env m sp).1,
       (finishedUpdate (if s.active = some sp then { s with active := none } else s) env m sp).2 ++
         [Ev.agentFinished sp]) := by
    unfold processLine
    rw [hso]
    simp [ht]
  rw [hred]
  refine ⟨by simp, ?_, ?_⟩
  · by_cases hac : s.active = some sp <;>
      simp [finishedUpdate_active, hac]
  · intro fh hok hfh hfe hd
    by_cases hac : s.active = some sp <;>
      simp [hac, finishedUpdate_hist _ env m sp fh hok hfh hfe hd]

theorem emigo_C5_witness :
    (mC5full.type_ = some "finished") ∧ (mC5full.session = some "/p") ∧
    (Ev.agentFinished "/p" ∈ (processLine stC3x envA mC5full).2) ∧
    ((processLine stC3x envA mC5full).1.active =
      if stC3x.active = some "/p" then none else stC3x.active) ∧
    (histMsgs (processLine stC3x envA mC5full).1 "/p" =
      ([{ role := "assistant", content := "done" }] : List ChatMsg).map
        (fun msg => { msg with content := envA.filt msg.content })) := by
  have h := emigo_C5_finished_amended stC3x envA mC5full "/p" rfl rfl (by decide)
  exact ⟨rfl, rfl, h.1, h.2.1,
    h.2.2 ([{ role := "assistant", content := "done" }] : List ChatMsg)
      (Or.inl rfl) rfl (by decide) rfl⟩


/-- emigo C8: for any run of the router over queued items, a prefix of
non-sentinel items never terminates the loop — the loop stops exactly at
the first sentinel, leaving precisely the items after it unconsumed — and
when that prefix consists of malformed lines the router state is unchanged
and every emitted event is a log line, so nothing is surfaced to the front
end. -/
theorem emigo_C8_router_skips_malformed (env : SendEnv) (s : EmigoState)
    (pre rest : List RItem) (hs : RItem.sentinel ∉ pre) :
    ((routerRun env s (pre ++ RItem.sentinel :: rest)).2.2 = rest) ∧
    (pre.all RItem.isMalformed = true →
      (routerRun env s (pre ++ RItem.sentinel :: rest)).1 = s ∧
      (routerRun env s (pre ++ RItem.sentinel :: rest)).2.1.all
        (fun e => !e.isFrontEnd) = true) := by
  revert hs
  induction pre generalizing s with
  | nil =>
    intro hs
    exact ⟨by simp [routerRun],
      fun _ => ⟨by simp [routerRun], by simp [routerRun, Ev.isFrontEnd]⟩⟩
  | cons hd tl ih =>
    intro hs
    have hs2 : RItem.sentinel ∉ tl := fun hmem => hs (List.mem_cons_of_mem _ hmem)
    cases hd with
    | sentinel => exact (hs (List.mem_cons_self _ _)).elim
    | malformed raw =>
      refine ⟨?_, ?_⟩
      · simpa [routerRun] using (ih s hs2).1
      · intro hall
        have hall2 : tl.all RItem.isMalformed = true := by
          simpa [RItem.isMalformed] using hall
        refine ⟨?_, ?_⟩
        · simpa [routerRun] using ((ih s hs2).2 hall2).1
        · have h2 := ((ih s hs2).2 hall2).2
          simpa [routerRun, Ev.isFrontEnd] using h2
    | msg m =>
      refine ⟨?_, ?_⟩
      · simpa [routerRun] using (ih (processLine s env m).1 hs2).1
      · intro hall
        simp [RItem.isMalformed] at hall

theorem emigo_C8_witness :
    (RItem.sentinel ∉ [RItem.malformed "not json"]) ∧
    (([RItem.malformed "not json"] : List RItem).all RItem.isMalformed = true) ∧
    ((routerRun envA stC3x
        ([RItem.malformed "not json"] ++ RItem.sentinel :: [RItem.msg mC5full])).2.2 =
      [RItem.msg mC5full]) ∧
    ((routerRun envA stC3x
        ([RItem.malformed "not json"] ++ RItem.sentinel :: [RItem.msg mC5full])).1 = stC3x) ∧
    ((routerRun envA stC3x
        ([RItem.malformed "not json"] ++ RItem.sentinel :: [RItem.msg mC5full])).2.1.all
        (fun e => !e.isFrontEnd) = true) := by
  have h := emigo_C8_router_skips_malformed envA stC3x
    [RItem.malformed "not json"] [RItem.msg mC5full] (by decide)
  exact ⟨by decide, by decide, h.1, (h.2 (by decide)).1, (h.2 (by decide)).2⟩

theorem routeOne_inv (s : PipeState) (h : pipeInv s) : pipeInv (routeOne s) := by
  rcases h with ⟨hq, hd⟩
  by_cases hr : s.routerOn = true
  · cases hqs : s.queue with
    | nil =>
      simp only [routeOne, hr, if_true, hqs]
      exact ⟨hq, hd⟩
    | cons p0 rest =>
      rcases p0 with ⟨t, it⟩
      cases it with
      | sentinel =>
        simp only [routeOne, hr, if_true, hqs, pipeInv]
        refine ⟨?_, hd⟩
        intro q hmem
        exact hq q (by rw [hqs]; exact List.mem_cons_of_mem _ hmem)
      | line raw =>
        simp only [routeOne, hr, if_true, hqs, pipeInv]
        refine ⟨?_, ?_⟩
        · intro q hmem
          exact hq q (by rw [hqs]; exact List.mem_cons_of_mem _ hmem)
        · intro q hmem
          rcases List.mem_append.mp hmem with h1 | h2
          · exact hd q h1
          · have ht : t = s.gen :=
              hq (t, PItem.line raw) (by rw [hqs]; exact List.mem_cons_self _ _)
            simp at h2
            rw [h2]
            simpa using ht
  · simp only [routeOne, if_neg hr]
    exact ⟨hq, hd⟩

theorem joinRouter_inv (n : Nat) (s : PipeState) (h : pipeInv s) :
    pipeInv (joinRouter n s) := by
  induction n generalizing s with
  | zero => exact h
  | succ k ih =>
    unfold joinRouter
    by_cases hr : s.routerOn = true
    · rw [if_pos hr]
      exact ih _ (routeOne_inv s h)
    · rw [if_neg hr]
      exact h

theorem stopPipe_inv (s : PipeState) (h : pipeInv s) : pipeInv (stopPipe s) := by
  rcases h with ⟨hq, hd⟩
  unfold stopPipe
  apply joinRouter_inv
  refine ⟨?_, hd⟩
  intro p hp
  simp only [List.mem_append] at hp
  rcases hp with h1 | h2
  · exact hq p h1
  · simp at h2
    simp [h2]

theorem cancelPipe_inv (s : PipeState) (h : pipeInv s) : pipeInv (cancelPipe s) := by
  have h1 := stopPipe_inv s h
  unfold cancelPipe
  exact ⟨by simp, h1.2⟩

theorem pipeStep_inv (s : PipeState) (op : PipeOp) (h : pipeInv s) :
    pipeInv (pipeStep s op) := by
  cases op with
  | push it =>
    rcases h with ⟨hq, hd⟩
    refine ⟨?_, hd⟩
    intro p hp
    simp only [pipeStep, List.mem_append] at hp ⊢
    rcases hp with h1 | h2
    · exact hq p h1
    · simp at h2
      simp [h2]
  | route => exact routeOne_inv s h
  | cancelRestart => exact cancelPipe_inv s h

theorem pipeExec_inv (s : PipeState) (ops : List PipeOp) (h : pipeInv s) :
    pipeInv (pipeExec s ops) := by
  induction ops generalizing s with
  | nil => exact h
  | cons op rest ih => exact ih _ (pipeStep_inv s op h)

/-- emigo C1: over every sequence of pump pushes, router steps and
cancellation restarts, every message the router dispatches was read under
the generation that is current at dispatch time — a message read under an
older generation is never dispatched — and after any cancellation restart
the queue is empty: every message left over from the prior generation,
stale sentinels included, has been drained and discarded rather than
handed to the new router loop. -/
theorem emigo_C1_stale_never_dispatched :
    (∀ ops : List PipeOp, ∀ p ∈ (pipeExec pipeInit ops).dispatched, p.1 = p.2) ∧
    (∀ s0 : PipeState, ∀ ops : List PipeOp,
      (pipeExec s0 (ops ++ [PipeOp.cancelRestart])).queue = []) := by
  constructor
  · intro ops p hp
    have h := pipeExec_inv pipeInit ops ⟨by simp [pipeInit], by simp [pipeInit]⟩
    exact h.2 p hp
  · intro s0 ops
    simp [pipeExec, List.foldl_append, pipeStep, cancelPipe]

theorem emigo_C1_witness :
    (((1 : Nat), (1 : Nat)) ∈
        (pipeExec pipeInit [PipeOp.push (PItem.line "a"), PipeOp.route]).dispatched) ∧
    ((1 : Nat) = (1 : Nat)) ∧
    ((pipeExec pipeInit [PipeOp.push (PItem.line "b"), PipeOp.cancelRestart]).queue = []) := by
  refine ⟨by decide, ?_, ?_⟩
  · exact emigo_C1_stale_never_dispatched.1
      [PipeOp.push (PItem.line "a"), PipeOp.route] (1, 1) (by decide)
  · exact emigo_C1_stale_never_dispatched.2 pipeInit [PipeOp.push (PItem.line "b")]

end EmigoModel
